import Mathlib

/-!
Verification of the streaming multi-provider AI response aggregator of
`src/services/aiService.ts`: the SSE chunk decoder and response handling
of `streamOpenAICompatResponse`, the provider router `getModelConfig`,
the prompt builder `buildSystemPrompt`, and the dispatch behaviour of
`generateStreamingResponse`.

Strings are modelled as `List Char` where character-level reasoning is
needed (the byte stream fed to the decoder) and as `String` elsewhere.
JavaScript `JSON.parse` is modelled by an executable JSON parser;
property access with optional chaining, JS truthiness, and the
try/catch of the decoder loop are modelled explicitly.
-/

/-! ### JSON values (results of JavaScript JSON.parse) -/

inductive JVal where
  | null
  | bool (b : Bool)
  | num (s : List Char)
  | str (s : List Char)
  | arr (elems : List JVal)
  | obj (fields : List (List Char × JVal))

def hexDigit? (c : Char) : Option Nat :=
  if '0' ≤ c ∧ c ≤ '9' then some (c.toNat - '0'.toNat)
  else if 'a' ≤ c ∧ c ≤ 'f' then some (c.toNat - 'a'.toNat + 10)
  else if 'A' ≤ c ∧ c ≤ 'F' then some (c.toNat - 'A'.toNat + 10)
  else none

def isJsonWs (c : Char) : Bool :=
  c = ' ' || c = '\t' || c = '\n' || c = '\r'

def skipWs : List Char → List Char
  | [] => []
  | c :: cs => if isJsonWs c then skipWs cs else c :: cs

/-- Body of a JSON string after the opening quote: returns the decoded
content and the remainder after the closing quote. -/
def parseStrRest : List Char → Option (List Char × List Char)
  | [] => none
  | '"' :: cs => some ([], cs)
  | '\\' :: '"' :: cs => (fun p => ('"' :: p.1, p.2)) <$> parseStrRest cs
  | '\\' :: '\\' :: cs => (fun p => ('\\' :: p.1, p.2)) <$> parseStrRest cs
  | '\\' :: '/' :: cs => (fun p => ('/' :: p.1, p.2)) <$> parseStrRest cs
  | '\\' :: 'b' :: cs => (fun p => ('\x08' :: p.1, p.2)) <$> parseStrRest cs
  | '\\' :: 'f' :: cs => (fun p => ('\x0c' :: p.1, p.2)) <$> parseStrRest cs
  | '\\' :: 'n' :: cs => (fun p => ('\n' :: p.1, p.2)) <$> parseStrRest cs
  | '\\' :: 'r' :: cs => (fun p => ('\r' :: p.1, p.2)) <$> parseStrRest cs
  | '\\' :: 't' :: cs => (fun p => ('\t' :: p.1, p.2)) <$> parseStrRest cs
  | '\\' :: 'u' :: h1 :: h2 :: h3 :: h4 :: cs =>
      match hexDigit? h1, hexDigit? h2, hexDigit? h3, hexDigit? h4 with
      | some a, some b, some c, some d =>
          (fun p => (Char.ofNat (a * 4096 + b * 256 + c * 16 + d) :: p.1, p.2)) <$>
            parseStrRest cs
      | _, _, _, _ => none
  | '\\' :: _ => none
  | c :: cs =>
      if c.toNat < 32 then none
      else (fun p => (c :: p.1, p.2)) <$> parseStrRest cs

/-- JSON number grammar. Returns the consumed characters (kept verbatim,
only zero-ness is ever inspected) and the remainder. -/
def parseNum (cs : List Char) : Option (List Char × List Char) :=
  let (sign, cs1) :=
    match cs with
    | '-' :: rest => (['-'], rest)
    | _ => (([] : List Char), cs)
  match cs1 with
  | '0' :: rest => parseNumFrac sign ['0'] rest
  | c :: _ =>
      if c.isDigit ∧ c ≠ '0' then
        let (ds, rest) := cs1.span (·.isDigit)
        parseNumFrac sign ds rest
      else none
  | [] => none
where
  parseNumFrac (sign intPart : List Char) (cs : List Char) :
      Option (List Char × List Char) :=
    match cs with
    | '.' :: rest =>
        let (ds, rest') := rest.span (·.isDigit)
        if ds.isEmpty then none
        else parseNumExp (sign ++ intPart ++ '.' :: ds) rest'
    | _ => parseNumExp (sign ++ intPart) cs
  parseNumExp (acc : List Char) (cs : List Char) :
      Option (List Char × List Char) :=
    match cs with
    | e :: rest =>
        if e = 'e' ∨ e = 'E' then
          let (es, rest1) :=
            match rest with
            | '+' :: r => (['+'], r)
            | '-' :: r => (['-'], r)
            | _ => (([] : List Char), rest)
          let (ds, rest2) := rest1.span (·.isDigit)
          if ds.isEmpty then none
          else some (acc ++ e :: es ++ ds, rest2)
        else some (acc, cs)
    | [] => some (acc, cs)

mutual

def parseVal : Nat → List Char → Option (JVal × List Char)
  | 0, _ => none
  | Nat.succ fuel, cs =>
    match skipWs cs with
    | 't' :: 'r' :: 'u' :: 'e' :: rest => some (.bool true, rest)
    | 'f' :: 'a' :: 'l' :: 's' :: 'e' :: rest => some (.bool false, rest)
    | 'n' :: 'u' :: 'l' :: 'l' :: rest => some (.null, rest)
    | '"' :: rest => (fun p => (JVal.str p.1, p.2)) <$> parseStrRest rest
    | '[' :: rest =>
        (match skipWs rest with
         | ']' :: rest' => some (.arr [], rest')
         | _ => (fun p => (JVal.arr p.1, p.2)) <$> parseElems fuel rest)
    | '{' :: rest =>
        (match skipWs rest with
         | '}' :: rest' => some (.obj [], rest')
         | _ => (fun p => (JVal.obj p.1, p.2)) <$> parseFields fuel rest)
    | cs' => (fun p => (JVal.num p.1, p.2)) <$> parseNum cs'

def parseElems : Nat → List Char → Option (List JVal × List Char)
  | 0, _ => none
  | Nat.succ fuel, cs => do
    let (v, rest) ← parseVal fuel cs
    match skipWs rest with
    | ',' :: rest' =>
        (fun p => (v :: p.1, p.2)) <$> parseElems fuel rest'
    | ']' :: rest' => some ([v], rest')
    | _ => none

def parseFields : Nat → List Char → Option (List (List Char × JVal) × List Char)
  | 0, _ => none
  | Nat.succ fuel, cs =>
    match skipWs cs with
    | '"' :: rest => do
        let (key, rest1) ← parseStrRest rest
        match skipWs rest1 with
        | ':' :: rest2 => do
            let (v, rest3) ← parseVal fuel rest2
            match skipWs rest3 with
            | ',' :: rest4 =>
                (fun p => ((key, v) :: p.1, p.2)) <$> parseFields fuel rest4
            | '}' :: rest4 => some ([(key, v)], rest4)
            | _ => none
        | _ => none
    | _ => none

end

/-- Model of JavaScript `JSON.parse`: parse one value, allow trailing
whitespace only; any other outcome is a thrown SyntaxError (`none`). -/
def jsonParse (cs : List Char) : Option JVal :=
  match parseVal (2 * cs.length + 2) cs with
  | some (v, rest) => if (skipWs rest).isEmpty then some v else none
  | none => none

/-! ### Property access: `parsed.choices?.[0]?.delta?.content`

A JS property read on a non-object primitive yields undefined (`none`);
a read on null throws a TypeError, but the whole expression sits inside
the decoder's try/catch whose handler skips the line, so a throw and an
undefined (hence falsy) result are observationally identical here, and
both are modelled as `none`. Duplicate JSON keys follow JS semantics:
the last occurrence wins. -/

def jsProp (v : JVal) (key : List Char) : Option JVal :=
  match v with
  | .obj fields => (fields.reverse.find? (fun f => f.1 = key)).map (·.2)
  | _ => none

def jsIndexZero (v : JVal) : Option JVal :=
  match v with
  | .arr (x :: _) => some x
  | .arr [] => none
  | .str (c :: _) => some (.str [c])
  | .str [] => none
  | .obj fields => (fields.reverse.find? (fun f => f.1 = ['0'])).map (·.2)
  | _ => none

/-- Optional chaining `a?.…`: short-circuit on undefined and on null. -/
def optChain (v : Option JVal) (f : JVal → Option JVal) : Option JVal :=
  match v with
  | none => none
  | some .null => none
  | some x => f x

def extractContent (parsed : JVal) : Option JVal :=
  optChain (optChain (optChain (jsProp parsed "choices".data) jsIndexZero)
    (fun d => jsProp d "delta".data)) (fun d => jsProp d "content".data)

/-- Is a JSON number literal zero (no nonzero digit in its mantissa)? -/
def jsonNumIsZero (s : List Char) : Bool :=
  (s.takeWhile (fun c => c ≠ 'e' ∧ c ≠ 'E')).all
    (fun c => !(c.isDigit ∧ c ≠ '0'))

/-- JavaScript truthiness of a `JSON.parse` result (`if (content)`). -/
def jsTruthy : JVal → Bool
  | .null => false
  | .bool b => b
  | .num s => !jsonNumIsZero s
  | .str s => !s.isEmpty
  | .arr _ => true
  | .obj _ => true

/-- Does a value satisfy the spec's description of a fragment, a
non-empty string? -/
def isNonEmptyStr : JVal → Bool
  | .str s => !s.isEmpty
  | _ => false

/-! ### The SSE chunk decoder of streamOpenAICompatResponse -/

inductive LineAct where
  | skip
  | stop
  | emit (v : JVal)

def sseDataTag : List Char := "data: ".data

def doneSentinel : List Char := "[DONE]".data

/-- One candidate line of the SSE loop body (aiService.ts lines
115-127): lines without the `data: ` tag are skipped, the `[DONE]`
payload returns from the generator, otherwise `JSON.parse` plus
delta-content extraction runs inside try/catch, yielding only truthy
content. -/
def lineAct (line : List Char) : LineAct :=
  if sseDataTag.isPrefixOf line then
    let data := line.drop 6
    if data = doneSentinel then .stop
    else
      match jsonParse data with
      | none => .skip
      | some parsed =>
          match extractContent parsed with
          | some c => if jsTruthy c then .emit c else .skip
          | none => .skip
  else .skip

/-- The `for (const line of lines)` loop: the fragments yielded, and
whether the `[DONE]` return fired (which abandons all remaining
lines and blocks). -/
def procLines : List (List Char) → List JVal × Bool
  | [] => ([], false)
  | l :: ls =>
    match lineAct l with
    | .stop => ([], true)
    | .emit v => (v :: (procLines ls).1, (procLines ls).2)
    | .skip => procLines ls

/-- `buffer.split('\n')`: split a character list at newlines; always
returns at least one (possibly empty) segment. -/
def splitNl : List Char → List (List Char)
  | [] => [[]]
  | c :: cs =>
    if c = '\n' then [] :: splitNl cs
    else
      match splitNl cs with
      | l :: ls => (c :: l) :: ls
      | [] => [[c]]

/-- The read loop of streamOpenAICompatResponse (lines 107-129): each
block is the decoded text of one `reader.read()` result, appended to
the carry buffer; the final split segment (`lines.pop() || ''`) is
carried to the next iteration; exhaustion of the blocks is `done`,
which breaks out discarding the carry. -/
def decodeStream : List (List Char) → List Char → List JVal
  | [], _ => []
  | b :: bs, buffer =>
    let parts := splitNl (buffer ++ b)
    let r := procLines parts.dropLast
    if r.2 then r.1 else r.1 ++ decodeStream bs (parts.getLastD [])

/-- Fragments produced by the decoder on a stream of decoded-text
blocks, starting from the empty buffer. -/
def streamDecode (blocks : List (List Char)) : List JVal :=
  decodeStream blocks []

/-- The sequence of operations the generator performs on the body
reader, per schedule of block arrivals: the loop's only reader call is
`reader.read()`; there is no try/finally, so no other reader operation
exists anywhere in the function body. -/
inductive ReaderAction where
  | read
  | cancel
  | releaseLock
deriving DecidableEq

def readerTrace : List (List Char) → List Char → List ReaderAction
  | [], _ => [.read]
  | b :: bs, buffer =>
    let parts := splitNl (buffer ++ b)
    let r := procLines parts.dropLast
    if r.2 then [.read] else .read :: readerTrace bs (parts.getLastD [])

/-! ### Data model of the service (src/types.ts) and class state -/

structure Memory where
  id : String
  category : String
  title : String
  content : String
  createdAt : Nat
deriving DecidableEq

structure WritingExample where
  id : String
  title : String
  content : String
  createdAt : Nat
deriving DecidableEq

structure APISettings where
  googleApiKey : String
  mistralApiKey : String
  cerebrasApiKey : String
  zhipuApiKey : String
  selectedModel : String
deriving DecidableEq

/-- A conversation turn as passed to generateStreamingResponse. -/
structure ChatMsg where
  role : String
  content : String
deriving DecidableEq

/-- The mutable fields of the AiService class, as one snapshot. -/
structure AiServiceState where
  settings : APISettings
  memories : List Memory
  examples : List WritingExample

/-! ### Prompt builder (aiService.ts lines 156-179) -/

/-- The fixed style-guide constant humanWritingPrompt of aiService.ts
(lines 9-69), transcribed verbatim. -/
def humanWritingPrompt : String :=
  "You are a skilled human writer creating engaging content. Your writing must be INDISTINGUISHABLE from a real person.

🎯 CRITICAL: WRITE LIKE A REAL HUMAN, NOT AI

❌ NEVER USE THESE AI CLICHÉS:
- \"In today's world/landscape/digital age\"
- \"Let's dive in/deep dive/explore\"
- \"Whether you're a beginner or expert\"
- \"It's important to note/understand\"
- \"In conclusion/To summarize\"
- \"At the end of the day\"
- Excessive transition words (Moreover, Furthermore, Additionally)
- Generic calls-to-action

✅ HUMAN WRITING PRINCIPLES:

1. CONVERSATIONAL TONE:
   - Write like you're talking to a friend over coffee
   - Use contractions naturally (I'm, you'll, we're, don't, can't)
   - Ask rhetorical questions
   - Use \"you\" to address readers directly
   - Include personal pronouns (I, we, my)

2. AUTHENTIC VOICE:
   - Share opinions confidently (no hedging with \"might\" or \"perhaps\" everywhere)
   - Use specific examples from real life
   - Include occasional humor or wit
   - Show personality and emotion
   - Be direct - cut filler words

3. NATURAL RHYTHM:
   - Vary sentence length dramatically
   - Some short. Some medium. And some that flow longer with multiple connected thoughts.
   - Start sentences differently (avoid repetitive patterns)
   - Use fragments for emphasis. Like this.

4. ENGAGING HOOKS:
   - Start with a bold statement, question, or mini-story
   - NO \"In this article, we'll explore...\"
   - Jump straight into the interesting part
   - Create curiosity immediately

5. REAL EXAMPLES:
   - Use specific numbers, names, scenarios
   - Include relatable situations readers have experienced
   - Share actual insights, not generic advice
   - Make examples vivid and memorable

6. STRONG ENDINGS:
   - End with impact, not summary
   - Leave readers with one powerful takeaway
   - NO \"So there you have it\" or \"I hope you found this helpful\"
   - Call to reflection, not just action

7. FORMATTING:
   - Short paragraphs (2-4 sentences max)
   - Use subheadings that create curiosity
   - Bold key phrases sparingly
   - Include occasional one-sentence paragraphs for punch

Remember: The best writing doesn't announce itself. It flows naturally, keeps readers engaged, and sounds like one human sharing insights with another."

/-- One bullet of the author-context section (`prompt += • ...`). -/
def memoryEntry (m : Memory) : String :=
  "• " ++ m.content ++ "\n"

/-- One entry of the style-example section: the template literal
`Example ${i + 1}:\n"${e.content.slice(0, 600)}..."\n\n`. -/
def exampleEntry (i : Nat) (e : WritingExample) : String :=
  "Example " ++ toString (i + 1) ++ ":\n" ++ ("\"" ++ e.content.take 600 ++ "...\"") ++ "\n\n"

/-- buildSystemPrompt: start from the style guide; append the
author-context section when memories exist; append the style-example
section when examples exist. `forEach` accumulation of `prompt +=` is a
left fold; `forEach((e, i) => ...)` folds over the index-paired list. -/
def buildSystemPrompt (memories : List Memory) (examples : List WritingExample) : String :=
  let prompt := humanWritingPrompt
  let prompt :=
    if memories.length > 0 then
      let prompt := prompt ++ "\n\n--- AUTHOR CONTEXT ---\n"
      let prompt := prompt ++ "Use this information naturally in your writing:\n"
      memories.foldl (fun acc m => acc ++ memoryEntry m) prompt
    else prompt
  let prompt :=
    if examples.length > 0 then
      let prompt := prompt ++ "\n\n--- WRITING STYLE TO MATCH ---\n"
      let prompt := prompt ++ "Study this writing style carefully and replicate it:\n\n"
      let prompt := examples.enum.foldl (fun acc p => acc ++ exampleEntry p.1 p.2) prompt
      prompt ++ "Match this exact tone, vocabulary, sentence structure, and personality."
    else prompt
  prompt

/-- Concatenation of the entries of a list under an entry renderer;
used to restate the folds of buildSystemPrompt positionally. -/
def entriesFrom (f : Nat → WritingExample → String) (i : Nat) : List WritingExample → String
  | [] => ""
  | e :: es => f i e ++ entriesFrom f (i + 1) es

def memoryConcat : List Memory → String
  | [] => ""
  | m :: ms => memoryEntry m ++ memoryConcat ms

/-- The author-context section exactly as emitted (empty when no
memories exist). -/
def memorySection (memories : List Memory) : String :=
  if memories.length > 0 then
    "\n\n--- AUTHOR CONTEXT ---\n" ++ "Use this information naturally in your writing:\n"
      ++ memoryConcat memories
  else ""

/-- The style-example section exactly as emitted (empty when no
examples exist). -/
def exampleSection (examples : List WritingExample) : String :=
  if examples.length > 0 then
    "\n\n--- WRITING STYLE TO MATCH ---\n" ++ "Study this writing style carefully and replicate it:\n\n"
      ++ entriesFrom exampleEntry 0 examples
      ++ "Match this exact tone, vocabulary, sentence structure, and personality."
  else ""

/-! ### Provider router (aiService.ts lines 181-199) -/

inductive Provider where
  | google
  | mistral
  | cerebras
  | zhipu
deriving DecidableEq

/-- getModelConfig: a switch over the logical model identifier with a
default case falling back to (google, gemini-2.5-flash). The TS `model`
value comes from persisted settings, so it is modelled as an arbitrary
string. -/
def getModelConfig (model : String) : Provider × String :=
  if model = "gemini-2.5-flash" then (.google, model)
  else if model = "gemini-2.5-pro" then (.google, model)
  else if model = "gemma-3-27b-it" then (.google, model)
  else if model = "mistral-large-latest" then (.mistral, model)
  else if model = "mistral-medium-latest" then (.mistral, model)
  else if model = "glm-4.5-flash" then (.zhipu, model)
  else if model = "gpt-oss-120b" then (.cerebras, model)
  else if model = "qwen-3-235b-a22b-instruct-2507" then (.cerebras, model)
  else if model = "zai-glm-4.6" then (.cerebras, model)
  else (.google, "gemini-2.5-flash")

/-- The nine identifiers enumerated by the switch (the AIModel union). -/
def knownModels : List String :=
  ["gemini-2.5-flash", "gemini-2.5-pro", "gemma-3-27b-it",
   "mistral-large-latest", "mistral-medium-latest", "glm-4.5-flash",
   "gpt-oss-120b", "qwen-3-235b-a22b-instruct-2507", "zai-glm-4.6"]

/-! ### OpenAI-compatible adapter response handling (lines 96-102) -/

/-- Observable shape of a fetch Response as the adapter inspects it:
`ok`, `status`, the body text read on the error path, and the body
stream (`none` models a null `response.body`), given as the decoded
text blocks its reader would produce. -/
structure HttpResponse where
  ok : Bool
  status : Nat
  bodyText : String
  body : Option (List (List Char))

/-- Outcome of streamOpenAICompatResponse after the fetch resolves:
either a thrown Error (carrying its message) before any yield, or the
fragment sequence of the decoder. -/
inductive FetchStreamResult where
  | thrown (msg : String)
  | fragments (frags : List JVal)

def streamOpenAICompatOutcome (response : HttpResponse) : FetchStreamResult :=
  if !response.ok then
    .thrown ("API Error: " ++ toString response.status ++ " - " ++ response.bodyText)
  else
    match response.body with
    | none => .thrown "No response body"
    | some blocks => .fragments (streamDecode blocks)

/-! ### The dispatch of generateStreamingResponse (lines 201-274) -/

structure GooglePart where
  text : String
deriving DecidableEq

structure GoogleTurn where
  role : String
  parts : List GooglePart
deriving DecidableEq

/-- Mapping of one conversation turn into the SDK history shape: the
assistant role becomes "model", any other role "user", and the content
is the sole text part. -/
def googleTurnOf (m : ChatMsg) : GoogleTurn :=
  { role := if m.role = "assistant" then "model" else "user"
    parts := [{ text := m.content }] }

/-- History passed to model.startChat: all turns but the last
(`messages.slice(0, -1)`), each mapped by `googleTurnOf`. -/
def googleHistory (messages : List ChatMsg) : List GoogleTurn :=
  messages.dropLast.map googleTurnOf

/-- What generateStreamingResponse does before (and instead of) any
streaming: throw a credential error, hit a runtime TypeError, or invoke
exactly one adapter with these arguments. `typeErr` is the TypeError of
reading `.content` on `messages[messages.length - 1]` when the list is
empty (undefined has no properties). -/
inductive DispatchResult where
  | thrown (msg : String)
  | typeErr
  | googleCall (apiKey modelId : String) (history : List GoogleTurn) (message : String)
  | openAICall (url apiKey model : String) (messages : List ChatMsg) (systemPrompt : String)

/-- The provider branch of generateStreamingResponse: resolve the
binding, build the system prompt, check the provider credential
(JS falsiness of a string is emptiness), then either throw before any
network activity or call the adapter for that provider. -/
def generateStreamingDispatch (st : AiServiceState) (messages : List ChatMsg) : DispatchResult :=
  let pc := getModelConfig st.settings.selectedModel
  let systemPrompt := buildSystemPrompt st.memories st.examples
  match pc.1 with
  | .google =>
      if st.settings.googleApiKey = "" then .thrown "Google API key not set"
      else
        match messages.getLast? with
        | none => .typeErr
        | some last =>
            .googleCall st.settings.googleApiKey pc.2 (googleHistory messages)
              (systemPrompt ++ "\n\n---\n\n" ++ last.content)
  | .mistral =>
      if st.settings.mistralApiKey = "" then .thrown "Mistral API key not set"
      else .openAICall "https://api.mistral.ai/v1/chat/completions"
        st.settings.mistralApiKey pc.2 messages systemPrompt
  | .cerebras =>
      if st.settings.cerebrasApiKey = "" then .thrown "Cerebras API key not set"
      else .openAICall "https://api.cerebras.ai/v1/chat/completions"
        st.settings.cerebrasApiKey pc.2 messages systemPrompt
  | .zhipu =>
      if st.settings.zhipuApiKey = "" then .thrown "Zhipu API key not set"
      else .openAICall "https://open.bigmodel.cn/api/paas/v4/chat/completions"
        st.settings.zhipuApiKey pc.2 messages systemPrompt

/-- The credential generateStreamingResponse consults for a provider. -/
def providerCredential (s : APISettings) : Provider → String
  | .google => s.googleApiKey
  | .mistral => s.mistralApiKey
  | .cerebras => s.cerebrasApiKey
  | .zhipu => s.zhipuApiKey

/-- The display name used in the "<Provider> API key not set" messages. -/
def providerLabel : Provider → String
  | .google => "Google"
  | .mistral => "Mistral"
  | .cerebras => "Cerebras"
  | .zhipu => "Zhipu"

/-! ### Concrete SSE inputs used by the test-style claims -/

/-- The line `data: {"choices":[{"delta":{"content":"Hi"}}]}` (no
trailing newline). -/
def hiLine : List Char :=
  "data: \x7b\"choices\":[\x7b\"delta\":\x7b\"content\":\"Hi\"\x7d\x7d]\x7d".data

/-- The line `data: {"choices":[{"delta":{"content":1}}]}`, whose
content field is the JSON number 1. -/
def numContentLine : List Char :=
  "data: \x7b\"choices\":[\x7b\"delta\":\x7b\"content\":1\x7d\x7d]\x7d".data

/-- Glue a carry-over prefix onto the first segment of a split. -/
def glueHead (pre : List Char) : List (List Char) → List (List Char)
  | [] => [pre]
  | l :: ls => (pre ++ l) :: ls

/-! ### Lemmas about the split-and-carry buffering -/

theorem splitNl_ne_nil (cs : List Char) : splitNl cs ≠ [] := by
  cases cs with
  | nil => simp [splitNl]
  | cons c cs =>
      simp only [splitNl]
      split
      · simp
      · split
        · simp
        · simp

theorem glueHead_ne_nil (pre : List Char) (L : List (List Char)) :
    glueHead pre L ≠ [] := by
  cases L <;> simp [glueHead]

theorem getLastD_irrel {α : Type} (l : List α) (h : l ≠ []) (d d' : α) :
    l.getLastD d = l.getLastD d' := by
  cases l with
  | nil => exact absurd rfl h
  | cons a as => rw [List.getLastD_cons, List.getLastD_cons]

theorem splitNl_cons (c : Char) (cs : List Char) :
    splitNl (c :: cs) =
      if c = '\n' then [] :: splitNl cs
      else
        match splitNl cs with
        | l :: ls => (c :: l) :: ls
        | [] => [[c]] := rfl

theorem getLastD_nil_char (d : List Char) : ([] : List (List Char)).getLastD d = d := rfl

theorem splitNl_append (xs ys : List Char) :
    splitNl (xs ++ ys) =
      (splitNl xs).dropLast ++ glueHead ((splitNl xs).getLastD []) (splitNl ys) := by
  induction xs with
  | nil =>
      rw [List.nil_append]
      show splitNl ys = ([[]] : List (List Char)).dropLast ++ glueHead ([[]].getLastD []) (splitNl ys)
      rw [List.dropLast_single, List.getLastD_cons, getLastD_nil_char, List.nil_append]
      cases h : splitNl ys with
      | nil => exact absurd h (splitNl_ne_nil ys)
      | cons l ls => simp [glueHead]
  | cons c cs ih =>
      cases h : splitNl cs with
      | nil => exact absurd h (splitNl_ne_nil cs)
      | cons l ls =>
          rw [h] at ih
          rw [List.cons_append, splitNl_cons, splitNl_cons, ih, h]
          by_cases hc : c = '\n'
          · subst hc
            simp [List.getLastD_cons]
          · simp only [if_neg hc]
            cases ls with
            | nil =>
                cases hy : splitNl ys with
                | nil => exact absurd hy (splitNl_ne_nil ys)
                | cons m ms => simp [glueHead, getLastD_nil_char, List.getLastD_cons]
            | cons l2 ls2 => simp [glueHead, List.getLastD_cons]

theorem not_nl_mem_splitNl {cs : List Char} {l : List Char}
    (hl : l ∈ splitNl cs) : '\n' ∉ l := by
  induction cs generalizing l with
  | nil =>
      simp only [splitNl, List.mem_singleton] at hl
      subst hl; simp
  | cons c cs ih =>
      rw [splitNl_cons] at hl
      by_cases hc : c = '\n'
      · rw [if_pos hc] at hl
        rcases List.mem_cons.1 hl with h | h
        · subst h; simp
        · exact ih h
      · rw [if_neg hc] at hl
        cases h : splitNl cs with
        | nil => exact absurd h (splitNl_ne_nil cs)
        | cons m ms =>
            rw [h] at hl
            rcases List.mem_cons.1 hl with h' | h' 
            · subst h'
              intro hmem
              rcases List.mem_cons.1 hmem with h'' | h''
              · exact hc h''.symm
              · exact ih (h ▸ List.mem_cons_self m ms) h''
            · exact ih (h ▸ List.mem_cons.2 (Or.inr h'))

theorem getLastD_mem {α : Type} (L : List α) (d : α) (h : L ≠ []) :
    L.getLastD d ∈ L := by
  induction L generalizing d with
  | nil => exact absurd rfl h
  | cons a as ih =>
      rw [List.getLastD_cons]
      cases as with
      | nil => simp [List.getLastD]
      | cons b bs => exact List.mem_cons.2 (Or.inr (ih a (List.cons_ne_nil b bs)))

theorem not_nl_carry (cs : List Char) : '\n' ∉ (splitNl cs).getLastD [] :=
  not_nl_mem_splitNl (getLastD_mem _ _ (splitNl_ne_nil cs))

theorem splitNl_of_not_nl {cs : List Char} (h : '\n' ∉ cs) : splitNl cs = [cs] := by
  induction cs with
  | nil => rfl
  | cons c cs ih =>
      rw [splitNl_cons,
        if_neg (fun hc => h (by rw [← hc]; exact List.mem_cons_self c cs)),
        ih (fun hm => h (List.mem_cons.2 (Or.inr hm)))]

theorem procLines_append (A B : List (List Char)) :
    procLines (A ++ B) =
      if (procLines A).2 then procLines A
      else ((procLines A).1 ++ (procLines B).1, (procLines B).2) := by
  induction A with
  | nil => simp [procLines]
  | cons l ls ih =>
      rw [List.cons_append]
      show (match lineAct l with
        | .stop => ([], true)
        | .emit v => (v :: (procLines (ls ++ B)).1, (procLines (ls ++ B)).2)
        | .skip => procLines (ls ++ B)) = _
      cases hl : lineAct l with
      | stop => simp [procLines, hl]
      | emit v =>
          rw [ih]
          by_cases h2 : (procLines ls).2
          · simp [procLines, hl, h2]
          · simp [procLines, hl, h2]
      | skip =>
          rw [ih]
          by_cases h2 : (procLines ls).2
          · simp [procLines, hl, h2]
          · simp [procLines, hl, h2]

theorem decode_flatten (bs : List (List Char)) (buf : List Char) (h : '\n' ∉ buf) :
    decodeStream bs buf = (procLines ((splitNl (buf ++ bs.flatten)).dropLast)).1 := by
  induction bs generalizing buf with
  | nil =>
      rw [List.flatten_nil, List.append_nil, splitNl_of_not_nl h]
      simp [decodeStream, procLines]
  | cons b bs ih =>
      have hc : '\n' ∉ (splitNl (buf ++ b)).getLastD [] := not_nl_carry _
      have hG : glueHead ((splitNl (buf ++ b)).getLastD []) (splitNl bs.flatten)
          = splitNl (((splitNl (buf ++ b)).getLastD []) ++ bs.flatten) := by
        rw [splitNl_append ((splitNl (buf ++ b)).getLastD []) bs.flatten,
          splitNl_of_not_nl hc, List.dropLast_single,
          List.nil_append, List.getLastD_cons, getLastD_nil_char]
      have hsplit : splitNl (buf ++ (b :: bs).flatten) =
          (splitNl (buf ++ b)).dropLast
            ++ splitNl (((splitNl (buf ++ b)).getLastD []) ++ bs.flatten) := by
        rw [List.flatten_cons, ← List.append_assoc,
          splitNl_append (buf ++ b) bs.flatten, hG]
      rw [hsplit, List.dropLast_append_of_ne_nil _ (splitNl_ne_nil _), procLines_append]
      show (let parts := splitNl (buf ++ b)
            let r := procLines parts.dropLast
            if r.2 then r.1 else r.1 ++ decodeStream bs (parts.getLastD [])) = _
      by_cases h2 : (procLines (splitNl (buf ++ b)).dropLast).2
      · simp only [h2, if_pos]
      · simp only [h2, Bool.false_eq_true, if_neg, not_false_iff]
        show (procLines (splitNl (buf ++ b)).dropLast).1
            ++ decodeStream bs ((splitNl (buf ++ b)).getLastD []) = _
        rw [ih _ hc]

theorem streamDecode_flatten (blocks : List (List Char)) :
    streamDecode blocks = streamDecode [blocks.flatten] := by
  show decodeStream blocks [] = decodeStream [blocks.flatten] []
  rw [decode_flatten blocks [] (by simp), decode_flatten [blocks.flatten] [] (by simp)]
  simp

theorem lineAct_emit_truthy {l : List Char} {v : JVal}
    (h : lineAct l = .emit v) : jsTruthy v = true := by
  simp only [lineAct] at h
  split at h
  · split at h
    · exact absurd h (by simp)
    · split at h
      · exact absurd h (by simp)
      · split at h
        · split at h
          · rename_i hc
            cases h
            assumption
          · exact absurd h (by simp)
        · exact absurd h (by simp)
  · exact absurd h (by simp)

theorem mem_procLines_truthy {ls : List (List Char)} {v : JVal}
    (h : v ∈ (procLines ls).1) : jsTruthy v = true := by
  induction ls with
  | nil => simp [procLines] at h
  | cons l ls ih =>
      have : procLines (l :: ls) = match lineAct l with
        | .stop => ([], true)
        | .emit w => (w :: (procLines ls).1, (procLines ls).2)
        | .skip => procLines ls := rfl
      rw [this] at h
      cases ha : lineAct l with
      | stop => rw [ha] at h; simp at h
      | emit w =>
          rw [ha] at h
          rcases List.mem_cons.1 h with h' | h'
          · subst h'; exact lineAct_emit_truthy ha
          · exact ih h'
      | skip => rw [ha] at h; exact ih h

theorem mem_decodeStream_truthy {bs : List (List Char)} {buf : List Char} {v : JVal}
    (h : v ∈ decodeStream bs buf) : jsTruthy v = true := by
  induction bs generalizing buf with
  | nil => simp [decodeStream] at h
  | cons b bs ih =>
      have : decodeStream (b :: bs) buf =
          (let parts := splitNl (buf ++ b)
           let r := procLines parts.dropLast
           if r.2 then r.1 else r.1 ++ decodeStream bs (parts.getLastD [])) := rfl
      rw [this] at h
      by_cases h2 : (procLines (splitNl (buf ++ b)).dropLast).2
      · simp only [h2, if_pos] at h
        exact mem_procLines_truthy h
      · simp only [h2, Bool.false_eq_true, if_neg, not_false_iff] at h
        rcases List.mem_append.1 h with h' | h'
        · exact mem_procLines_truthy h'
        · exact ih h'

theorem lineAct_stop_of_done {l : List Char}
    (h1 : sseDataTag.isPrefixOf l) (h2 : l.drop 6 = doneSentinel) :
    lineAct l = .stop := by
  simp [lineAct, h1, h2]

theorem procLines_stop_absorbs (pre post : List (List Char)) (l : List Char)
    (h : lineAct l = .stop) :
    procLines (pre ++ l :: post) = procLines (pre ++ [l]) := by
  induction pre with
  | nil =>
      rw [List.nil_append, List.nil_append]
      show (match lineAct l with
        | .stop => (([] : List JVal), true)
        | .emit v => (v :: (procLines post).1, (procLines post).2)
        | .skip => procLines post) = _
      rw [h]
      show _ = (match lineAct l with
        | .stop => (([] : List JVal), true)
        | .emit v => (v :: (procLines ([] : List (List Char))).1, (procLines ([] : List (List Char))).2)
        | .skip => procLines ([] : List (List Char)))
      rw [h]
  | cons p ps ih =>
      rw [List.cons_append, List.cons_append]
      show (match lineAct p with
        | .stop => (([] : List JVal), true)
        | .emit v => (v :: (procLines (ps ++ l :: post)).1, (procLines (ps ++ l :: post)).2)
        | .skip => procLines (ps ++ l :: post)) =
        (match lineAct p with
        | .stop => (([] : List JVal), true)
        | .emit v => (v :: (procLines (ps ++ [l])).1, (procLines (ps ++ [l])).2)
        | .skip => procLines (ps ++ [l]))
      cases lineAct p with
      | stop => rfl
      | emit v => rw [ih]
      | skip => rw [ih]

theorem decodeStream_stop_absorbs (b : List Char) (bs : List (List Char))
    (buffer : List Char)
    (h : (procLines (splitNl (buffer ++ b)).dropLast).2 = true) :
    decodeStream (b :: bs) buffer = decodeStream [b] buffer := by
  show (let parts := splitNl (buffer ++ b)
        let r := procLines parts.dropLast
        if r.2 then r.1 else r.1 ++ decodeStream bs (parts.getLastD [])) =
    (let parts := splitNl (buffer ++ b)
     let r := procLines parts.dropLast
     if r.2 then r.1 else r.1 ++ decodeStream [] (parts.getLastD []))
  simp only [h, if_pos]

theorem readerTrace_all_read {bs : List (List Char)} {buffer : List Char} {a : ReaderAction}
    (h : a ∈ readerTrace bs buffer) : a = .read := by
  induction bs generalizing buffer with
  | nil =>
      simp only [readerTrace, List.mem_singleton] at h
      exact h
  | cons b bs ih =>
      have e : readerTrace (b :: bs) buffer =
          (let parts := splitNl (buffer ++ b)
           let r := procLines parts.dropLast
           if r.2 then [.read] else .read :: readerTrace bs (parts.getLastD [])) := rfl
      rw [e] at h
      by_cases h2 : (procLines (splitNl (buffer ++ b)).dropLast).2
      · simp only [h2, if_pos, List.mem_singleton] at h
        exact h
      · simp only [h2, Bool.false_eq_true, if_neg, not_false_iff] at h
        rcases List.mem_cons.1 h with h' | h'
        · exact h'
        · exact ih h'

/-! ### Lemmas about the prompt builder -/

theorem foldl_memoryEntry (ms : List Memory) (init : String) :
    ms.foldl (fun acc m => acc ++ memoryEntry m) init = init ++ memoryConcat ms := by
  induction ms generalizing init with
  | nil => simp [memoryConcat, String.append_empty]
  | cons m ms ih =>
      rw [List.foldl_cons, ih]
      show init ++ memoryEntry m ++ memoryConcat ms = init ++ (memoryEntry m ++ memoryConcat ms)
      rw [String.append_assoc]

theorem foldl_exampleEntry (es : List WritingExample) (i : Nat) (init : String) :
    (es.enumFrom i).foldl (fun acc p => acc ++ exampleEntry p.1 p.2) init
      = init ++ entriesFrom exampleEntry i es := by
  induction es generalizing i init with
  | nil => simp [entriesFrom, String.append_empty, List.enumFrom]
  | cons e es ih =>
      show (((i, e) :: es.enumFrom (i + 1)).foldl
        (fun acc p => acc ++ exampleEntry p.1 p.2) init) = _
      rw [List.foldl_cons, ih]
      show init ++ exampleEntry i e ++ entriesFrom exampleEntry (i + 1) es
        = init ++ (exampleEntry i e ++ entriesFrom exampleEntry (i + 1) es)
      rw [String.append_assoc]

theorem buildSystemPrompt_eq (ms : List Memory) (es : List WritingExample) :
    buildSystemPrompt ms es = humanWritingPrompt ++ memorySection ms ++ exampleSection es := by
  have he0 : ∀ init : String,
      es.enum.foldl (fun acc p => acc ++ exampleEntry p.1 p.2) init
        = init ++ entriesFrom exampleEntry 0 es :=
    fun init => foldl_exampleEntry es 0 init
  unfold buildSystemPrompt memorySection exampleSection
  by_cases hm : ms.length > 0 <;> by_cases he : es.length > 0 <;>
    simp only [hm, he, if_pos, if_neg, not_false_iff, foldl_memoryEntry, he0,
      String.append_assoc, String.append_empty]

theorem data_append3 (a b c : String) :
    (a ++ b ++ c).data = a.data ++ b.data ++ c.data := by
  rw [String.data_append, String.data_append]

/-- A contiguous-occurrence witness at the string level transfers to the
character level. -/
theorem infix_of_split {x s : String} (pre post : String)
    (h : s = pre ++ x ++ post) : x.data <:+: s.data :=
  ⟨pre.data, post.data, (data_append3 pre x post).symm.trans (congrArg String.data h.symm)⟩

theorem memoryConcat_split {m : Memory} {ms : List Memory} (h : m ∈ ms) :
    ∃ pre post : String, memoryConcat ms = pre ++ memoryEntry m ++ post := by
  induction ms with
  | nil => simp at h
  | cons m' ms ih =>
      rcases List.mem_cons.1 h with h' | h'
      · subst h'
        refine ⟨"", memoryConcat ms, ?_⟩
        show memoryEntry m ++ memoryConcat ms = "" ++ memoryEntry m ++ memoryConcat ms
        rw [String.empty_append]
      · obtain ⟨pre, post, hp⟩ := ih h'
        refine ⟨memoryEntry m' ++ pre, post, ?_⟩
        show memoryEntry m' ++ memoryConcat ms = _
        rw [hp]
        simp only [← String.append_assoc]

theorem entriesFrom_split {e : WritingExample} {es : List WritingExample}
    (h : e ∈ es) (i : Nat) :
    ∃ pre post : String, entriesFrom exampleEntry i es
      = pre ++ ("\"" ++ e.content.take 600 ++ "...\"") ++ post := by
  induction es generalizing i with
  | nil => simp at h
  | cons e' es ih =>
      rcases List.mem_cons.1 h with h' | h'
      · subst h'
        refine ⟨"Example " ++ toString (i + 1) ++ ":\n",
               "\n\n" ++ entriesFrom exampleEntry (i + 1) es, ?_⟩
        show exampleEntry i e ++ entriesFrom exampleEntry (i + 1) es = _
        simp only [exampleEntry, ← String.append_assoc]
      · obtain ⟨pre, post, hp⟩ := ih h' (i + 1)
        refine ⟨exampleEntry i e' ++ pre, post, ?_⟩
        show exampleEntry i e' ++ entriesFrom exampleEntry (i + 1) es = _
        rw [hp]
        simp only [← String.append_assoc]

theorem buildSystemPrompt_split_memory {m : Memory} {ms : List Memory}
    (es : List WritingExample) (h : m ∈ ms) :
    ∃ pre post : String, buildSystemPrompt ms es = pre ++ memoryEntry m ++ post := by
  have hms : ms.length > 0 := List.length_pos.2 (List.ne_nil_of_mem h)
  obtain ⟨pre, post, hp⟩ := memoryConcat_split h
  refine ⟨humanWritingPrompt ++ "\n\n--- AUTHOR CONTEXT ---\n"
    ++ "Use this information naturally in your writing:\n" ++ pre,
    post ++ exampleSection es, ?_⟩
  rw [buildSystemPrompt_eq, memorySection, if_pos hms, hp]
  simp only [← String.append_assoc]

theorem buildSystemPrompt_split_example {e : WritingExample} {es : List WritingExample}
    (ms : List Memory) (h : e ∈ es) :
    ∃ pre post : String, buildSystemPrompt ms es
      = pre ++ ("\"" ++ e.content.take 600 ++ "...\"") ++ post := by
  have hes : es.length > 0 := List.length_pos.2 (List.ne_nil_of_mem h)
  obtain ⟨pre, post, hp⟩ := entriesFrom_split h 0
  refine ⟨humanWritingPrompt ++ memorySection ms ++ "\n\n--- WRITING STYLE TO MATCH ---\n"
    ++ "Study this writing style carefully and replicate it:\n\n" ++ pre,
    post ++ "Match this exact tone, vocabulary, sentence structure, and personality.", ?_⟩
  rw [buildSystemPrompt_eq, exampleSection, if_pos hes, hp]
  simp only [← String.append_assoc]

/-! ### Lemmas about the dispatch layer -/

theorem googleHistory_length (messages : List ChatMsg) :
    (googleHistory messages).length = messages.length - 1 := by
  simp [googleHistory, List.length_dropLast]

theorem googleHistory_getElem (messages : List ChatMsg) (i : Nat)
    (h : i + 1 < messages.length) :
    (googleHistory messages)[i]? = (messages[i]?).map googleTurnOf := by
  have hd : i < messages.dropLast.length := by
    rw [List.length_dropLast]; omega
  have hm : i < messages.length := by omega
  unfold googleHistory
  rw [List.getElem?_eq_getElem (by simpa using hd), List.getElem?_eq_getElem hm]
  rw [List.getElem_map]
  rw [List.getElem_dropLast]
  simp

/-! ### Claim theorems -/

/-- C1: feeding the byte stream with the line
`data: {"choices":[{"delta":{"content":"Hi"}}]}`, a newline, the line
`data: [DONE]` and a newline yields exactly the fragment "Hi" and
terminates; in general a line whose payload after the `data: ` tag is
the `[DONE]` sentinel stops the loop at once: later candidate lines of
the batch and all later blocks contribute no fragment. -/
theorem sse_done_sentinel_terminates :
    streamDecode [hiLine ++ '\n' :: "data: [DONE]\n".data] = [JVal.str "Hi".data]
    ∧ (∀ l : List Char, sseDataTag.isPrefixOf l → l.drop 6 = doneSentinel →
        lineAct l = .stop)
    ∧ (∀ (pre post : List (List Char)) (l : List Char), lineAct l = .stop →
        procLines (pre ++ l :: post) = procLines (pre ++ [l]))
    ∧ (∀ (b : List Char) (bs : List (List Char)) (buffer : List Char),
        (procLines (splitNl (buffer ++ b)).dropLast).2 = true →
        decodeStream (b :: bs) buffer = decodeStream [b] buffer) :=
  ⟨by rfl,
   fun _ h1 h2 => lineAct_stop_of_done h1 h2,
   fun pre post l h => procLines_stop_absorbs pre post l h,
   fun b bs buffer h => decodeStream_stop_absorbs b bs buffer h⟩

theorem sse_done_sentinel_terminates_witness :
    lineAct "data: [DONE]".data = .stop
    ∧ procLines (["data: junk".data] ++ "data: [DONE]".data :: [hiLine])
        = procLines (["data: junk".data] ++ ["data: [DONE]".data])
    ∧ decodeStream ["data: [DONE]\n".data, hiLine ++ ['\n']] []
        = decodeStream ["data: [DONE]\n".data] [] :=
  ⟨sse_done_sentinel_terminates.2.1 "data: [DONE]".data (by rfl) (by rfl),
   sse_done_sentinel_terminates.2.2.1 ["data: junk".data] [hiLine]
     "data: [DONE]".data (by rfl),
   sse_done_sentinel_terminates.2.2.2 "data: [DONE]\n".data [hiLine ++ ['\n']] []
     (by rfl)⟩

/-- C2: the decoder is invariant under re-blocking of the byte stream:
for any input whose decoded text ends in a newline, feeding it split at
arbitrary block boundaries yields the same fragments as feeding it
whole; in particular any two-block split of the "Hi" line still yields
exactly the fragment "Hi". -/
theorem sse_buffering_invariance :
    (∀ blocks : List (List Char), blocks.flatten.getLast? = some '\n' →
      streamDecode blocks = streamDecode [blocks.flatten])
    ∧ (∀ b1 b2 : List Char, b1 ++ b2 = hiLine ++ ['\n'] →
      streamDecode [b1, b2] = [JVal.str "Hi".data]) := by
  constructor
  · intro blocks _
    exact streamDecode_flatten blocks
  · intro b1 b2 h
    calc streamDecode [b1, b2] = streamDecode [[b1, b2].flatten] :=
          streamDecode_flatten _
      _ = streamDecode [hiLine ++ ['\n']] := by
          rw [show [b1, b2].flatten = b1 ++ b2 by simp, h]
      _ = [JVal.str "Hi".data] := by rfl

theorem sse_buffering_invariance_witness :
    streamDecode [hiLine.take 10, hiLine.drop 10 ++ ['\n']]
      = streamDecode [[hiLine.take 10, hiLine.drop 10 ++ ['\n']].flatten]
    ∧ streamDecode [hiLine.take 20, hiLine.drop 20 ++ ['\n']] = [JVal.str "Hi".data] :=
  ⟨sse_buffering_invariance.1 [hiLine.take 10, hiLine.drop 10 ++ ['\n']] (by rfl),
   sse_buffering_invariance.2 (hiLine.take 20) (hiLine.drop 20 ++ ['\n']) (by rfl)⟩

/-- C4 counterexample: the claim "every yielded fragment is a non-empty
string" fails on the code: a well-formed event whose content field is
the JSON number 1 is truthy, so `yield content` emits the number itself
(the generator's declared string element type is erased at runtime). -/
theorem sse_fragment_not_string_cex :
    streamDecode [numContentLine ++ ['\n']] = [JVal.num ['1']]
    ∧ isNonEmptyStr (JVal.num ['1']) = false :=
  ⟨by rfl, by rfl⟩

/-- C4 amended: a `data: ` line whose payload is not valid JSON, or
whose parsed value lacks the first choice's delta content, is silently
skipped and decoding continues (the concrete not-json example yields
only the valid fragment, and the decoder is a total function, so no
exception escapes); every yielded fragment is truthy under JavaScript
truthiness — hence every yielded string fragment is non-empty, though a
non-string truthy content value is yielded as-is. -/
theorem sse_malformed_skipped :
    streamDecode ["data: not-json\n".data ++ hiLine ++ ['\n']] = [JVal.str "Hi".data]
    ∧ (∀ line : List Char, sseDataTag.isPrefixOf line → line.drop 6 ≠ doneSentinel →
        jsonParse (line.drop 6) = none → lineAct line = .skip)
    ∧ (∀ (line : List Char) (parsed : JVal), sseDataTag.isPrefixOf line →
        line.drop 6 ≠ doneSentinel → jsonParse (line.drop 6) = some parsed →
        extractContent parsed = none → lineAct line = .skip)
    ∧ (∀ (blocks : List (List Char)) (v : JVal), v ∈ streamDecode blocks →
        jsTruthy v = true)
    ∧ (∀ (blocks : List (List Char)) (s : List Char),
        JVal.str s ∈ streamDecode blocks → s ≠ []) := by
  refine ⟨by rfl, ?_, ?_, ?_, ?_⟩
  · intro line h1 h2 h3
    simp [lineAct, h1, h2, h3]
  · intro line parsed h1 h2 h3 h4
    simp [lineAct, h1, h2, h3, h4]
  · intro blocks v h
    exact mem_decodeStream_truthy h
  · intro blocks s h
    have ht : jsTruthy (JVal.str s) = true := mem_decodeStream_truthy h
    simp only [jsTruthy, Bool.not_eq_true'] at ht
    simpa using ht

theorem sse_malformed_skipped_witness :
    lineAct "data: not-json".data = .skip
    ∧ lineAct "data: \x7b\"choices\":[]\x7d".data = .skip
    ∧ jsTruthy (JVal.str "Hi".data) = true
    ∧ "Hi".data ≠ [] :=
  ⟨sse_malformed_skipped.2.1 "data: not-json".data (by rfl) (by decide) (by rfl),
   sse_malformed_skipped.2.2.1 "data: \x7b\"choices\":[]\x7d".data (JVal.obj
     [("choices".data, JVal.arr [])]) (by rfl) (by decide) (by rfl) (by rfl),
   sse_malformed_skipped.2.2.2.1 [hiLine ++ ['\n']] (JVal.str "Hi".data)
     (by
       have e : streamDecode [hiLine ++ ['\n']] = [JVal.str "Hi".data] := rfl
       rw [e]
       exact List.mem_singleton_self _),
   sse_malformed_skipped.2.2.2.2 [hiLine ++ ['\n']] "Hi".data
     (by
       have e : streamDecode [hiLine ++ ['\n']] = [JVal.str "Hi".data] := rfl
       rw [e]
       exact List.mem_singleton_self _)⟩

/-- C3: the generator's only operation on the body reader is read(): on
every schedule of block arrivals the reader-action trace contains no
cancel() and no releaseLock() (there is no try/finally, so on early
abandonment — a generator return at the yield point — no further
statement of the body runs either). The transport is therefore never
explicitly released, contradicting the required cleanup behaviour. -/
theorem reader_never_released :
    (∀ (blocks : List (List Char)) (buffer : List Char) (a : ReaderAction),
      a ∈ readerTrace blocks buffer → a = .read)
    ∧ (∀ (blocks : List (List Char)) (buffer : List Char),
        ReaderAction.cancel ∉ readerTrace blocks buffer)
    ∧ (∀ (blocks : List (List Char)) (buffer : List Char),
        ReaderAction.releaseLock ∉ readerTrace blocks buffer) :=
  ⟨fun _ _ _ h => readerTrace_all_read h,
   fun _ _ h => ReaderAction.noConfusion (readerTrace_all_read h),
   fun _ _ h => ReaderAction.noConfusion (readerTrace_all_read h)⟩

theorem reader_never_released_witness :
    ReaderAction.read = ReaderAction.read
    ∧ ReaderAction.cancel ∉ readerTrace [hiLine ++ ['\n']] []
    ∧ ReaderAction.releaseLock ∉ readerTrace [hiLine ++ ['\n']] [] :=
  ⟨reader_never_released.1 [hiLine ++ ['\n']] [] ReaderAction.read
     (by
       have e : readerTrace [hiLine ++ ['\n']] [] = [.read, .read] := rfl
       rw [e]
       exact List.mem_cons_self _ _),
   reader_never_released.2.1 [hiLine ++ ['\n']] [],
   reader_never_released.2.2 [hiLine ++ ['\n']] []⟩

/-- C5: whenever the credential of the provider resolved from the
selected model is the empty string, generateStreamingResponse throws
the provider's "API key not set" error; the thrown outcome carries no
adapter call, so no network request is made and no fragment yielded. -/
theorem credential_guard :
    ∀ (st : AiServiceState) (messages : List ChatMsg),
      providerCredential st.settings (getModelConfig st.settings.selectedModel).1 = "" →
      generateStreamingDispatch st messages
        = .thrown (providerLabel (getModelConfig st.settings.selectedModel).1
            ++ " API key not set") := by
  intro st messages h
  cases hp : (getModelConfig st.settings.selectedModel).1 with
  | google =>
      rw [hp] at h
      simp only [providerCredential] at h
      simp [generateStreamingDispatch, hp, h, providerLabel]
  | mistral =>
      rw [hp] at h
      simp only [providerCredential] at h
      simp [generateStreamingDispatch, hp, h, providerLabel]
  | cerebras =>
      rw [hp] at h
      simp only [providerCredential] at h
      simp [generateStreamingDispatch, hp, h, providerLabel]
  | zhipu =>
      rw [hp] at h
      simp only [providerCredential] at h
      simp [generateStreamingDispatch, hp, h, providerLabel]

theorem credential_guard_witness :
    providerCredential ⟨"", "", "", "", "mistral-large-latest"⟩
      (getModelConfig "mistral-large-latest").1 = ""
    ∧ generateStreamingDispatch
        ⟨⟨"", "", "", "", "mistral-large-latest"⟩, [], []⟩ [⟨"user", "hi"⟩]
        = .thrown (providerLabel (getModelConfig "mistral-large-latest").1
            ++ " API key not set") :=
  ⟨by rfl,
   credential_guard ⟨⟨"", "", "", "", "mistral-large-latest"⟩, [], []⟩
     [⟨"user", "hi"⟩] (by rfl)⟩

/-- C6: getModelConfig is total (a Lean function cannot throw): each of
the nine identifiers of the switch maps to its listed provider/model
pair, and every other string falls back to the default binding
(google, gemini-2.5-flash). -/
theorem model_config_total :
    getModelConfig "gemini-2.5-flash" = (.google, "gemini-2.5-flash")
    ∧ getModelConfig "gemini-2.5-pro" = (.google, "gemini-2.5-pro")
    ∧ getModelConfig "gemma-3-27b-it" = (.google, "gemma-3-27b-it")
    ∧ getModelConfig "mistral-large-latest" = (.mistral, "mistral-large-latest")
    ∧ getModelConfig "mistral-medium-latest" = (.mistral, "mistral-medium-latest")
    ∧ getModelConfig "glm-4.5-flash" = (.zhipu, "glm-4.5-flash")
    ∧ getModelConfig "gpt-oss-120b" = (.cerebras, "gpt-oss-120b")
    ∧ getModelConfig "qwen-3-235b-a22b-instruct-2507"
        = (.cerebras, "qwen-3-235b-a22b-instruct-2507")
    ∧ getModelConfig "zai-glm-4.6" = (.cerebras, "zai-glm-4.6")
    ∧ (∀ m : String, m ∉ knownModels →
        getModelConfig m = (.google, "gemini-2.5-flash")) := by
  refine ⟨rfl, rfl, rfl, rfl, rfl, rfl, rfl, rfl, rfl, ?_⟩
  intro m hm
  simp only [knownModels, List.mem_cons, List.not_mem_nil, or_false, not_or] at hm
  obtain ⟨h1, h2, h3, h4, h5, h6, h7, h8, h9⟩ := hm
  simp [getModelConfig, h1, h2, h3, h4, h5, h6, h7, h8, h9]

theorem model_config_total_witness :
    ("gpt-5" : String) ∉ knownModels
    ∧ getModelConfig "gpt-5" = (.google, "gemini-2.5-flash") :=
  ⟨by decide,
   model_config_total.2.2.2.2.2.2.2.2.2 "gpt-5" (by decide)⟩

/-- C7: on a non-success HTTP status the adapter throws an error whose
message contains the numeric status code and the body text (witnessed by
explicit decompositions of the message); on a success response without a
readable body it throws "No response body"; on a success response with a
body it reaches the decoder and throws nothing else at this layer. -/
theorem openai_adapter_failure :
    (∀ r : HttpResponse, r.ok = false →
      streamOpenAICompatOutcome r
          = .thrown ("API Error: " ++ toString r.status ++ " - " ++ r.bodyText)
        ∧ (∃ pre post : String,
            ("API Error: " ++ toString r.status ++ " - " ++ r.bodyText)
              = pre ++ toString r.status ++ post)
        ∧ (∃ pre post : String,
            ("API Error: " ++ toString r.status ++ " - " ++ r.bodyText)
              = pre ++ r.bodyText ++ post))
    ∧ (∀ r : HttpResponse, r.ok = true → r.body = none →
        streamOpenAICompatOutcome r = .thrown "No response body")
    ∧ (∀ (r : HttpResponse) (blocks : List (List Char)), r.ok = true →
        r.body = some blocks →
        streamOpenAICompatOutcome r = .fragments (streamDecode blocks)) := by
  refine ⟨?_, ?_, ?_⟩
  · intro r h
    refine ⟨by simp [streamOpenAICompatOutcome, h], ?_, ?_⟩
    · refine ⟨"API Error: ", " - " ++ r.bodyText, ?_⟩
      simp only [← String.append_assoc]
    · refine ⟨"API Error: " ++ toString r.status ++ " - ", "", ?_⟩
      rw [String.append_empty]
  · intro r h hb
    simp [streamOpenAICompatOutcome, h, hb]
  · intro r blocks h hb
    simp [streamOpenAICompatOutcome, h, hb]

theorem openai_adapter_failure_witness :
    streamOpenAICompatOutcome ⟨false, 429, "rate limited", none⟩
      = .thrown ("API Error: " ++ toString (429 : Nat) ++ " - " ++ "rate limited")
    ∧ streamOpenAICompatOutcome ⟨true, 200, "", none⟩ = .thrown "No response body"
    ∧ streamOpenAICompatOutcome ⟨true, 200, "", some [hiLine ++ ['\n']]⟩
        = .fragments (streamDecode [hiLine ++ ['\n']]) :=
  ⟨(openai_adapter_failure.1 ⟨false, 429, "rate limited", none⟩ (by rfl)).1,
   openai_adapter_failure.2.1 ⟨true, 200, "", none⟩ (by rfl) (by rfl),
   openai_adapter_failure.2.2 ⟨true, 200, "", some [hiLine ++ ['\n']]⟩
     [hiLine ++ ['\n']] (by rfl) (by rfl)⟩

/-- C8: with no memories and no examples the built prompt is exactly the
style-guide constant; in general the prompt is the style guide, then the
author-context section, then the style-example section, in that fixed
order; each memory content occurs as its own bulleted line, and each
example content occurs quoted, truncated to its first 600 characters and
followed by the "..." marker. -/
theorem system_prompt_structure :
    buildSystemPrompt [] [] = humanWritingPrompt
    ∧ (∀ (ms : List Memory) (es : List WritingExample),
        buildSystemPrompt ms es
          = humanWritingPrompt ++ memorySection ms ++ exampleSection es)
    ∧ (∀ (ms : List Memory) (es : List WritingExample) (m : Memory), m ∈ ms →
        ∃ pre post : String,
          buildSystemPrompt ms es = pre ++ ("• " ++ m.content ++ "\n") ++ post)
    ∧ (∀ (ms : List Memory) (es : List WritingExample) (e : WritingExample), e ∈ es →
        ∃ pre post : String,
          buildSystemPrompt ms es
            = pre ++ ("\"" ++ e.content.take 600 ++ "...\"") ++ post) :=
  ⟨rfl,
   buildSystemPrompt_eq,
   fun _ es _ h => buildSystemPrompt_split_memory es h,
   fun ms _ _ h => buildSystemPrompt_split_example ms h⟩

theorem system_prompt_structure_witness :
    (⟨"m1", "personal", "t", "Fact", 0⟩ : Memory) ∈ [(⟨"m1", "personal", "t", "Fact", 0⟩ : Memory)]
    ∧ (∃ pre post : String,
        buildSystemPrompt [⟨"m1", "personal", "t", "Fact", 0⟩]
            [⟨"e1", "t", String.mk (List.replicate 700 'a'), 0⟩]
          = pre ++ ("• " ++ (Memory.content ⟨"m1", "personal", "t", "Fact", 0⟩) ++ "\n") ++ post)
    ∧ (∃ pre post : String,
        buildSystemPrompt [⟨"m1", "personal", "t", "Fact", 0⟩]
            [⟨"e1", "t", String.mk (List.replicate 700 'a'), 0⟩]
          = pre ++ ("\"" ++ (WritingExample.content ⟨"e1", "t", String.mk (List.replicate 700 'a'), 0⟩).take 600
              ++ "...\"") ++ post) :=
  ⟨List.mem_singleton_self _,
   system_prompt_structure.2.2.1 [⟨"m1", "personal", "t", "Fact", 0⟩]
     [⟨"e1", "t", String.mk (List.replicate 700 'a'), 0⟩]
     ⟨"m1", "personal", "t", "Fact", 0⟩ (List.mem_singleton_self _),
   system_prompt_structure.2.2.2 [⟨"m1", "personal", "t", "Fact", 0⟩]
     [⟨"e1", "t", String.mk (List.replicate 700 'a'), 0⟩]
     ⟨"e1", "t", String.mk (List.replicate 700 'a'), 0⟩ (List.mem_singleton_self _)⟩

/-- C9: on the google path with a configured key and a non-empty
conversation, the dispatch starts a chat whose history is exactly the
turns except the last, each turn mapped with assistant becoming "model"
and anything else "user" and the content as the sole text part, and the
streamed message is the system prompt, the `\n\n---\n\n` delimiter, and
then the last turn's content. -/
theorem google_adapter_mapping :
    ∀ (st : AiServiceState) (messages : List ChatMsg) (last : ChatMsg),
      (getModelConfig st.settings.selectedModel).1 = .google →
      st.settings.googleApiKey ≠ "" →
      messages.getLast? = some last →
      generateStreamingDispatch st messages
          = .googleCall st.settings.googleApiKey
              (getModelConfig st.settings.selectedModel).2
              (googleHistory messages)
              (buildSystemPrompt st.memories st.examples ++ "\n\n---\n\n" ++ last.content)
        ∧ (googleHistory messages).length = messages.length - 1
        ∧ (∀ i : Nat, i + 1 < messages.length →
            (googleHistory messages)[i]?
              = (messages[i]?).map (fun m =>
                  { role := if m.role = "assistant" then "model" else "user"
                    parts := [{ text := m.content }] })) := by
  intro st messages last hp hk hl
  refine ⟨?_, googleHistory_length messages, ?_⟩
  · simp [generateStreamingDispatch, hp, hk, hl]
  · intro i hi
    exact googleHistory_getElem messages i hi

theorem google_adapter_mapping_witness :
    generateStreamingDispatch
        ⟨⟨"key", "", "", "", "gemini-2.5-pro"⟩, [], []⟩
        [⟨"user", "a"⟩, ⟨"assistant", "b"⟩, ⟨"user", "c"⟩]
      = .googleCall "key" (getModelConfig "gemini-2.5-pro").2
          (googleHistory [⟨"user", "a"⟩, ⟨"assistant", "b"⟩, ⟨"user", "c"⟩])
          (buildSystemPrompt [] [] ++ "\n\n---\n\n" ++ "c")
    ∧ (googleHistory [(⟨"user", "a"⟩ : ChatMsg), ⟨"assistant", "b"⟩, ⟨"user", "c"⟩]).length = 2 :=
  ⟨(google_adapter_mapping ⟨⟨"key", "", "", "", "gemini-2.5-pro"⟩, [], []⟩
      [⟨"user", "a"⟩, ⟨"assistant", "b"⟩, ⟨"user", "c"⟩] ⟨"user", "c"⟩
      (by rfl) (by decide) (by rfl)).1,
   (google_adapter_mapping ⟨⟨"key", "", "", "", "gemini-2.5-pro"⟩, [], []⟩
      [⟨"user", "a"⟩, ⟨"assistant", "b"⟩, ⟨"user", "c"⟩] ⟨"user", "c"⟩
      (by rfl) (by decide) (by rfl)).2.1⟩

/-- C10: generateStreamingResponse performs no emptiness validation of
the conversation: on the google path with a configured key, an empty
conversation reads `.content` of `messages[messages.length - 1]`, which
is undefined, so the call fails with a runtime TypeError (modelled by
the `typeErr` outcome) instead of a described error category. -/
theorem empty_conversation_type_error :
    ∀ st : AiServiceState,
      (getModelConfig st.settings.selectedModel).1 = .google →
      st.settings.googleApiKey ≠ "" →
      generateStreamingDispatch st [] = .typeErr := by
  intro st hp hk
  simp [generateStreamingDispatch, hp, hk]

theorem empty_conversation_type_error_witness :
    generateStreamingDispatch ⟨⟨"key", "", "", "", "gemini-2.5-flash"⟩, [], []⟩ []
      = .typeErr :=
  empty_conversation_type_error ⟨⟨"key", "", "", "", "gemini-2.5-flash"⟩, [], []⟩
    (by rfl) (by decide)
